import Mathlib

/-!
Shallow embedding of the idread stream decoder and its collectors
(`data_api2/idread_util.py`).

Modelling conventions:
* A Python byte stream is a `List Nat` (one `Nat` per byte, values 0..255);
  `bytes.read(n)` is `pyRead`, which returns at most `n` bytes and, for a
  negative argument, the whole remainder (CPython semantics of `read`).
* `struct.unpack` of an exact-width integer is `unpackI`; a buffer of the
  wrong length raises, modelled as `Err.structError`.
* Calls into external libraries (`bitshuffle.decompress_lz4`,
  `numpy.frombuffer` + `reshape`, `datetime.fromtimestamp(...).astimezone()`,
  `json.loads`) are modelled as uninterpreted total constructors or as
  oracle parameters: their outputs are opaque values carrying the exact
  inputs the source passes to them.
* Python `None` is `Option.none` (for integer-valued slots) or `PyVal.none`
  (for the decoded value slot).
-/

/-- Exceptions the decoder can raise. -/
inductive Err where
  /-- `struct.error`: a buffer shorter or longer than the format width. -/
  | structError
  /-- `RuntimeError('Unsupported data type')` from header channel parsing. -/
  | unsupportedDataType
  /-- `RuntimeError('Compression not supported')` from `_read_header`. -/
  | compressionNotSupported
  /-- `UnboundLocalError`: the local `channel` read before any assignment. -/
  | unboundLocal
  /-- `ValueError` from `numpy.frombuffer` on a truncated fixed-width read. -/
  | numpyError
deriving DecidableEq, Repr

/-- Big-endian unsigned integer value of a byte list. -/
def beNat (bs : List Nat) : Nat :=
  bs.foldl (fun a b => a * 256 + b) 0

/-- Two's-complement reinterpretation of a `w`-byte unsigned value. -/
def sInt (w : Nat) (v : Nat) : Int :=
  if v < 2 ^ (8 * w - 1) then (v : Int) else (v : Int) - 2 ^ (8 * w)

/-- `struct.unpack` of one `w`-byte signed integer: big-endian for format
prefix `>`, little-endian (native) otherwise; any other buffer length is a
`struct.error`. -/
def unpackI (big : Bool) (w : Nat) (bs : List Nat) : Option Int :=
  if bs.length = w then some (sInt w (beNat (if big then bs else bs.reverse)))
  else none

/-- `stream.read(n)` for a nonnegative count: `(bytes returned, rest)`. -/
def pyReadN (st : List Nat) (n : Nat) : List Nat × List Nat :=
  (st.take n, st.drop n)

/-- `stream.read(n)` for a possibly negative count: a negative count reads
the whole remainder (CPython `read` semantics). -/
def pyRead (st : List Nat) (n : Int) : List Nat × List Nat :=
  if n < 0 then (st, []) else (st.take n.toNat, st.drop n.toNat)

/-- A decoded Python value handed to a collector.  Outputs of external
libraries are uninterpreted constructors retaining their inputs. -/
inductive PyVal where
  /-- Python `None` (zero-length event). -/
  | none
  /-- `struct.unpack(stype, raw)[0]` for a scalar channel. -/
  | scalar (stype : String) (raw : List Nat)
  /-- `struct.unpack(stype, raw)` for a one-dimensional channel. -/
  | tuple (stype : String) (raw : List Nat)
  /-- `numpy.frombuffer(raw, dtype).reshape(shape)`. -/
  | ndarray (dtype : String) (raw : List Nat) (shape : List Int)
  /-- `bitshuffle.decompress_lz4(raw[12:], shape, dtype, b_size / size)`. -/
  | decompressed (raw : List Nat) (shape : List Int) (dtype : String)
      (bSize : Int) (elemSize : Nat)
deriving DecidableEq, Repr

/-- One element of the header JSON `channels` array.  Keys the source reads
with `in` checks are `Option`s; `name` and `backend` are read
unconditionally and are modelled as required fields. -/
structure ChanJson where
  type : Option String
  encoding : Option String
  compression : Option String
  shape : Option (List Int)
  name : String
  backend : String
deriving DecidableEq, Repr

/-- The `n_channel` dictionary built by the header branch of `decode`. -/
structure NChan where
  size : Nat
  dtype : String
  stype : String
  encoding : String
  compression : Option String
  shape : List Int
  name : String
  backend : String
  longtype : String
  chartype : String
  inttype : String
deriving DecidableEq, Repr

/-- The per-type dispatch of the header branch (lines 276..298): the
`(size, dtype suffix, stype suffix)` triple for a supported `type` string,
`none` for an unsupported one. -/
def chanTri (ty : Option String) : Option (Nat × String × String) :=
  match ty with
  | .none => some (8, "f8", "d")
  | .some t =>
    if t = "float64" ∨ t = "float" then some (8, "f8", "d")
    else if t = "uint8" then some (1, "u1", "B")
    else if t = "int8" then some (1, "i1", "b")
    else if t = "uint16" then some (2, "u2", "H")
    else if t = "int16" then some (2, "i2", "h")
    else if t = "uint32" then some (4, "u4", "I")
    else if t = "int32" then some (4, "i4", "i")
    else if t = "uint64" then some (8, "u8", "Q")
    else if t = "int64" ∨ t = "int" then some (8, "i8", "q")
    else if t = "float32" then some (4, "f4", "f")
    else none

/-- Header channel elaboration: the type-string dispatch of `decode`
(lines 274..316), producing one `n_channel` or raising
`RuntimeError('Unsupported data type')`. -/
def mkNChan (c : ChanJson) : Except Err NChan :=
  let encoding : String := if c.encoding = some "big" then ">" else ""
  match chanTri c.type with
  | .none => .error .unsupportedDataType
  | .some (sz, dt, st) =>
      .ok { size := sz
            dtype := encoding ++ dt
            stype := encoding ++ st
            encoding := encoding
            compression := c.compression
            shape := match c.shape with
                     | .some l => l.reverse
                     | .none => [1]
            name := c.name
            backend := c.backend
            longtype := encoding ++ "q"
            chartype := encoding ++ "b"
            inttype := encoding ++ "i" }

/-- The header branch loop over `header['channels']`: elaborate every
channel in order, aborting on the first unsupported one. -/
def procChans : List ChanJson → Except Err (List NChan)
  | [] => .ok []
  | c :: cs =>
    match mkNChan c with
    | .error e => .error e
    | .ok n =>
      match procChans cs with
      | .error e => .error e
      | .ok ns => .ok (n :: ns)

/-- The arguments `decode` passes to a collector for one channel of one
value frame. -/
structure EvArgs where
  data : PyVal
  pulse_id : Option Int
  global_time : Option Int
  ioc_time : Option Int
  status : Option Int
  severity : Option Int
deriving DecidableEq, Repr

/-- The all-null event produced for `event_size == 0`. -/
def nullEv : EvArgs :=
  { data := .none, pulse_id := none, global_time := none, ioc_time := none
    status := none, severity := none }

/-- Decode one channel event from a value frame body (`decode`, lines
337..377): the 4-byte `event_size`, then either the null event or the
26-byte metadata block plus `event_size - 26` payload bytes.  Returns the
event, the `event_size` read, and the rest of the stream. -/
def readEvent (chan : NChan) (st : List Nat) : Except Err (EvArgs × Int × List Nat) :=
  let big := chan.encoding = ">"
  let (b, st) := pyReadN st 4
  match unpackI big 4 b with
  | .none => .error .structError
  | .some event_size =>
    if event_size = 0 then
      .ok (nullEv, 0, st)
    else
      let (b1, st) := pyReadN st 8
      let (b2, st) := pyReadN st 8
      let (b3, st) := pyReadN st 8
      let (b4, st) := pyReadN st 1
      let (b5, st) := pyReadN st 1
      match unpackI big 8 b1, unpackI big 8 b2, unpackI big 8 b3,
            unpackI big 1 b4, unpackI big 1 b5 with
      | .some ioc_time, .some pulse_id, .some global_time, .some status, .some severity =>
        let n_bytes_to_read : Int := event_size - 26
        let (raw, st) := pyRead st n_bytes_to_read
        match chan.compression with
        | .some _ =>
          -- struct.unpack of raw_bytes[:8] and raw_bytes[8:12]
          if (raw.take 8).length = 8 then
            if ((raw.drop 8).take 4).length = 4 then
              let bSize := sInt 4 (beNat ((raw.drop 8).take 4))
              .ok ({ data := .decompressed (raw.drop 12) chan.shape chan.dtype bSize chan.size
                     pulse_id := some pulse_id, global_time := some global_time
                     ioc_time := some ioc_time, status := some status
                     severity := some severity }, event_size, st)
            else .error .structError
          else .error .structError
        | .none =>
          if chan.shape = [1] then
            -- struct.unpack(stype, raw)[0] needs exactly `size` bytes
            if raw.length = chan.size then
              .ok ({ data := .scalar chan.stype raw
                     pulse_id := some pulse_id, global_time := some global_time
                     ioc_time := some ioc_time, status := some status
                     severity := some severity }, event_size, st)
            else .error .structError
          else if chan.shape.length = 1 then
            if raw.length = chan.size then
              .ok ({ data := .tuple chan.stype raw
                     pulse_id := some pulse_id, global_time := some global_time
                     ioc_time := some ioc_time, status := some status
                     severity := some severity }, event_size, st)
            else .error .structError
          else
            .ok ({ data := .ndarray chan.dtype raw chan.shape
                   pulse_id := some pulse_id, global_time := some global_time
                   ioc_time := some ioc_time, status := some status
                   severity := some severity }, event_size, st)
      | _, _, _, _, _ => .error .structError

/-- The collector callback type: the Python signature
`add_data(channel_name, backend, value, pulse_id, global_time, ioc_time,
status, severity)` threading a collector state. -/
def CFn (σ : Type) : Type :=
  σ → String → String → PyVal → Option Int → Option Int → Option Int →
    Option Int → Option Int → σ

/-- The per-channel loop of the value branch of `decode` (lines 328..382):
decodes one event per descriptor, accumulates `size_counter` by
`2 + 4 + event_size` per channel, and invokes the collector.  On an
exception the remaining stream and collector state at the raise point are
returned with the error. -/
def foldChans (cf : Option (CFn σ)) :
    List NChan → σ → List Nat → Int → Except (Err × List Nat × σ) (σ × List Nat × Int)
  | [], col, st, counter => .ok (col, st, counter)
  | c :: cs, col, st, counter =>
    match readEvent c st with
    | .error e => .error (e, st, col)
    | .ok (ev, event_size, st') =>
      let counter' := counter + (2 + 4 + event_size)
      let col' := match cf with
                  | .some f => f col c.name c.backend ev.data ev.pulse_id
                      ev.global_time ev.ioc_time ev.status ev.severity
                  | .none => col
      foldChans cf cs col' st' counter'

/-- The mutable state of the `decode` loop: the unread stream, the
`channels` local (absent before the first header frame), whether the local
`channel` has ever been assigned (the source compares `channel == []`, a
Python `UnboundLocalError` when it was not), and the collector state. -/
structure LoopSt (σ : Type) where
  stream : List Nat
  channels : Option (List NChan)
  chanBound : Bool
  col : σ
deriving Repr

/-- Result of one pass of the `while True` loop of `decode`. -/
inductive StepRes (σ : Type) where
  /-- The loop continues with this state. -/
  | cont (s : LoopSt σ)
  /-- `break` on a clean end of stream. -/
  | brk (col : σ)
  /-- An exception aborts `decode`; the remaining stream and the collector
  state at the raise point are the observable data. -/
  | err (e : Err) (rest : List Nat) (col : σ)
deriving Repr

section Decode

-- `jsonLoads` models `json.loads(data)['channels']` on the (decompressed)
-- header text, as an oracle from the raw bytes to the parsed channel array.
-- `bsDecompressHdr` models `bitshuffle.decompress_lz4` on a compressed
-- header: arguments are the bytes after the 12-byte prefix, the declared
-- length and the block size.
variable (jsonLoads : List Nat → List ChanJson)
variable (bsDecompressHdr : List Nat → Int → Int → List Nat)

/-- `_read_header(byte_array, size)` (lines 395..415): read the 8-byte
hash, the 1-byte header compression marker and the `size - 2 - 8 - 1`
remaining body bytes, decompress if marked, and hand the text to
`json.loads` (the `jsonLoads` oracle).  Returns the parsed channels array
and the rest of the stream, or the exception with the stream at the raise
point. -/
def read_header (st : List Nat) (size : Int) :
    Except (Err × List Nat) (List ChanJson × List Nat) :=
  let (bh, st3) := pyReadN st 8
  if bh.length < 8 then .error (.numpyError, st3)
  else
    let (bc, st4) := pyReadN st3 1
    if bc.length < 1 then .error (.numpyError, st4)
    else
      let compression : Int := sInt 1 (beNat bc)
      let (raw, st5) := pyRead st4 (size - 2 - 8 - 1)
      if compression = 0 then .ok (jsonLoads raw, st5)
      else if compression = 1 then
        if (raw.take 8).length = 8 then
          if ((raw.drop 8).take 4).length = 4 then
            let len := sInt 8 (beNat (raw.take 8))
            let bSize := sInt 4 (beNat ((raw.drop 8).take 4))
            .ok (jsonLoads (bsDecompressHdr (raw.drop 12) len bSize), st5)
          else .error (.structError, st5)
        else .error (.structError, st5)
      else .error (.compressionNotSupported, st5)

/-- One pass of the `while True` loop of `decode` (lines 253..392): read
the 8-byte size and the 2-byte frame kind, then dispatch to the header
branch, the value branch, or the unknown-kind drain. -/
def decodeStep (cf : Option (CFn σ)) (s : LoopSt σ) : StepRes σ :=
  if s.stream = [] then .brk s.col
  else if s.stream.length < 8 then .err .structError (s.stream.drop 8) s.col
  else
    let size : Int := sInt 8 (beNat (s.stream.take 8))
    let st1 := s.stream.drop 8
    if st1.length < 2 then .err .structError (st1.drop 2) s.col
    else
      let fid : Int := sInt 2 (beNat (st1.take 2))
      let st2 := st1.drop 2
      if fid = 1 then
        match read_header jsonLoads bsDecompressHdr st2 size with
        | .error (e, rest) => .err e rest s.col
        | .ok (chansJson, rest) =>
          match procChans chansJson with
          | .error e => .err e rest s.col
          | .ok ncs =>
            .cont { stream := rest, channels := some ncs
                    chanBound := s.chanBound || !chansJson.isEmpty
                    col := s.col }
      else if fid = 0 then
        match s.channels with
        | .none =>
          -- no header yet: drain size - 2 bytes and warn
          .cont { stream := (pyRead st2 (size - 2)).2, channels := s.channels
                  chanBound := s.chanBound, col := s.col }
        | .some chs =>
          -- the source evaluates `channel == []`: an UnboundLocalError if
          -- `channel` was never assigned, otherwise False (a dict is never
          -- equal to a list), so the skip branch is never taken here
          if s.chanBound then
            match foldChans cf chs s.col st2 0 with
            | .error (e, rest, col) => .err e rest col
            | .ok (col, st', counter) =>
              let remaining := size - counter
              let stream' := if remaining > 0 then (pyRead st' remaining).2 else st'
              .cont { stream := stream', channels := some chs
                      chanBound := s.chanBound || !chs.isEmpty, col := col }
          else .err .unboundLocal st2 s.col
      else
        -- unknown frame kind: drain size - 2 bytes and warn
        .cont { stream := (pyRead st2 (size - 2)).2, channels := s.channels
                chanBound := s.chanBound, col := s.col }

/-- The `while True` loop of `decode`, fuel-indexed: with fuel `0` the
current state is returned unprocessed as `.cont`. -/
def decodeLoop (cf : Option (CFn σ)) : Nat → LoopSt σ → StepRes σ
  | 0, s => .cont s
  | n + 1, s =>
    match decodeStep jsonLoads bsDecompressHdr cf s with
    | .cont s' => decodeLoop cf n s'
    | r => r

/-- `decode(bytes, collector_function)`: run the loop from the initial
locals (`channels = None`, `channel` unbound). -/
def decode (bs : List Nat) (cf : Option (CFn σ)) (col : σ) (fuel : Nat) : StepRes σ :=
  decodeLoop jsonLoads bsDecompressHdr cf fuel
    { stream := bs, channels := none, chanBound := false, col := col }

end Decode

/-! ## Insertion-ordered dictionaries

Python `dict`s preserve insertion order; they are modelled as association
lists where assignment updates in place or appends a new key at the end. -/

/-- `d[k]` lookup returning `none` for a missing key. -/
def dictGet {β : Type} : List (String × β) → String → Option β
  | [], _ => none
  | (k', v) :: rest, k => if k' = k then some v else dictGet rest k

/-- `d[k] = v`: update the existing entry in place, else append. -/
def dictSet {β : Type} : List (String × β) → String → β → List (String × β)
  | [], k, v => [(k, v)]
  | (k', v') :: rest, k, v =>
    if k' = k then (k, v) :: rest else (k', v') :: dictSet rest k v

/-- A value stored in a collector record.  `datetime` conversion is an
external call and is kept uninterpreted. -/
inductive FVal where
  /-- A string value (the `channel` and `backend` keys). -/
  | str (s : String)
  /-- The decoded channel value as handed in by `decode`. -/
  | py (v : PyVal)
  /-- `datetime.fromtimestamp(global_time / 1e9).astimezone()`. -/
  | localTime (g : Int)
  /-- Python `None` stored under the `time` key. -/
  | noneF
  /-- A raw (possibly `None`) integer field. -/
  | opt (i : Option Int)
deriving DecidableEq, Repr

/-- One collector record (a Python dict keyed by field name). -/
abbrev Rec : Type := List (String × FVal)

/-- The `event_fields` loop shared by `DictionaryCollector.add_data` and
`MappingCollector.add_data` (the `ioc_time` argument is never consulted;
the `iocSeconds` branch is commented out in the source). -/
def buildField (value : PyVal)
    (pulse_id global_time status severity : Option Int) (v : Rec) (f : String) : Rec :=
  if f = "value" then dictSet v "value" (.py value)
  else if f = "time" then
    dictSet v "time" (match global_time with
                      | some g => .localTime g
                      | none => .noneF)
  else if f = "timeRaw" then dictSet v "timeRaw" (.opt global_time)
  else if f = "pulseId" then dictSet v "pulseId" (.opt pulse_id)
  else if f = "status" then dictSet v "status" (.opt status)
  else if f = "severity" then dictSet v "severity" (.opt severity)
  else v

/-- One pass of the `event_fields` loop: `buildField` applied along the
configured field list. -/
def buildFields (fields : List String) (value : PyVal)
    (pulse_id global_time status severity : Option Int) (r0 : Rec) : Rec :=
  fields.foldl (buildField value pulse_id global_time status severity) r0

/-- The default `event_fields` list of both collectors. -/
def defaultFields : List String :=
  ["value", "time", "pulseId", "status", "severity", "timeRaw"]

/-- State of `DictionaryCollector`: `backend_data[backend][channel]` is a
list of records. -/
structure DictionaryCollector where
  event_fields : List String
  backend_data : List (String × List (String × List Rec))
deriving Repr

/-- A fresh `DictionaryCollector` (the source defaults `event_fields` to
`defaultFields`). -/
def DictionaryCollector.init (fields : List String) : DictionaryCollector :=
  { event_fields := fields, backend_data := [] }

/-- `DictionaryCollector.add_data` (lines 30..69). -/
def DictionaryCollector.add_data (self : DictionaryCollector)
    (channel_name backend : String) (value : PyVal)
    (pulse_id global_time ioc_time status severity : Option Int) :
    DictionaryCollector :=
  let channel_data := (dictGet self.backend_data backend).getD []
  let data_list := (dictGet channel_data channel_name).getD []
  let v := buildFields self.event_fields value pulse_id global_time status severity []
  let bd := dictSet self.backend_data backend
      (dictSet channel_data channel_name (data_list ++ [v]))
  { self with backend_data := bd }

/-- `DictionaryCollector.get_data` (lines 76..82): one entry per
`(backend, channel)` pair, as `(channel, backend, data)`. -/
def DictionaryCollector.get_data (self : DictionaryCollector) :
    List (String × String × List Rec) :=
  (self.backend_data.map (fun p =>
    p.2.map (fun q => (q.1, p.1, q.2)))).flatten

/-- State of `MappingCollector` (lines 92..98). -/
structure MappingCollector where
  event_fields : List String
  number_of_channels : Nat
  backend_data : List (List (Option Rec))
  channel_count : Nat
  tmp_array : List (Option Rec)
deriving Repr

/-- A fresh `MappingCollector` for `number_of_channels` channels (the
source defaults `event_fields` to `defaultFields`). -/
def MappingCollector.init (n : Nat) (fields : List String) :
    MappingCollector :=
  { event_fields := fields, number_of_channels := n, backend_data := []
    channel_count := 0, tmp_array := [] }

/-- `MappingCollector.add_data` (lines 100..135): flush the previous round
when `channel_count` reaches `number_of_channels`, then append a record
(`None` for a `None` value) to `tmp_array`. -/
def MappingCollector.add_data (self : MappingCollector)
    (channel_name backend : String) (value : PyVal)
    (pulse_id global_time ioc_time status severity : Option Int) :
    MappingCollector :=
  let self :=
    if self.channel_count = self.number_of_channels then
      { self with backend_data := self.backend_data ++ [self.tmp_array]
                  tmp_array := [], channel_count := 0 }
    else self
  let self := { self with channel_count := self.channel_count + 1 }
  let v : Option Rec :=
    match value with
    | .none => none
    | _ => some (buildFields self.event_fields value pulse_id global_time
        status severity [("channel", .str channel_name), ("backend", .str backend)])
  { self with tmp_array := self.tmp_array ++ [v] }

/-- `MappingCollector.get_data` (lines 142..148): returns `backend_data`
as is (the pending `tmp_array` is not flushed). -/
def MappingCollector.get_data (self : MappingCollector) : List (List (Option Rec)) :=
  self.backend_data

/-! ## HDF5Collector

The h5py file handle is external; a dataset is modelled by its allocated
first-dimension extent (`reference.shape[0]`), its written cells, and the
creation-time dtype and per-row shape. -/

/-- A numpy value appended to a dataset (dtype, shape, and an abstract
payload standing for the numeric content). -/
structure NpVal where
  dtype : String
  shape : List Nat
  payload : Int
deriving DecidableEq, Repr

/-- The `Dataset` bookkeeping class (lines 151..155) together with the
modelled h5py dataset it references. -/
structure Dataset where
  name : String
  count : Nat
  shape0 : Nat
  dtype : String
  rowShape : List Nat
  cells : Nat → Option NpVal

/-- State of `HDF5Collector`. -/
structure HDF5Collector where
  datasets : List (String × Dataset)
  compress : Bool

/-- A fresh `HDF5Collector` over a newly opened file (the source defaults
`compress` to false). -/
def HDF5Collector.init (compress : Bool) : HDF5Collector :=
  { datasets := [], compress := compress }

/-- `HDF5Collector.append_dataset` (lines 191..220): create the dataset on
first use with allocated extent 1, grow the allocation to `count + 1000`
when full, write the value (rows for `None` values are left unwritten),
and increment the logical row count. -/
def HDF5Collector.append_dataset (self : HDF5Collector) (dataset_name : String)
    (value : Option NpVal) (dtype : String) (shape : List Nat)
    (_compress : Bool) : HDF5Collector :=
  let fresh : Dataset :=
    { name := dataset_name, count := 0, shape0 := 1
      dtype := dtype, rowShape := shape, cells := fun _ => none }
  let self :=
    if (dictGet self.datasets dataset_name).isSome then self
    else { self with datasets := dictSet self.datasets dataset_name fresh }
  match dictGet self.datasets dataset_name with
  | none => self
  | some dataset =>
    let dataset :=
      if dataset.shape0 < dataset.count + 1 then
        { dataset with shape0 := dataset.count + 1000 }
      else dataset
    let dataset :=
      match value with
      | some v =>
        { dataset with cells := fun i => if i = dataset.count then some v else dataset.cells i }
      | none => dataset
    let dataset := { dataset with count := dataset.count + 1 }
    { self with datasets := dictSet self.datasets dataset_name dataset }

/-- The per-dataset body of `compact_data`: shrink one dataset whose
allocation exceeds its logical row count down to that count (h5py `resize`
discards rows past the new extent). -/
def compactD (d : Dataset) : Dataset :=
  if d.count < d.shape0 then
    { d with shape0 := d.count
             cells := fun i => if i < d.count then d.cells i else none }
  else d

/-- `HDF5Collector.compact_data` (lines 183..189): shrink every dataset
whose allocation exceeds its logical row count down to that count. -/
def HDF5Collector.compact_data (self : HDF5Collector) : HDF5Collector :=
  { self with datasets := self.datasets.map (fun p => (p.1, compactD p.2)) }

/-- `HDF5Collector.close` (lines 177..181): compact, then close the file
(the close itself is external). -/
def HDF5Collector.close (self : HDF5Collector) : HDF5Collector :=
  self.compact_data

/-- `HDF5Collector.add_data` (lines 225..238).  Note the last call: the
source appends `ioc_time` (not `severity`) under the `severity` dataset
name, with `severity.dtype` as the dtype. -/
def HDF5Collector.add_data (self : HDF5Collector) (channel_name _backend : String)
    (value pulse_id global_time ioc_time status severity : NpVal) : HDF5Collector :=
  let self := self.append_dataset ("/" ++ channel_name ++ "/data") (some value)
      value.dtype value.shape self.compress
  let self := self.append_dataset ("/" ++ channel_name ++ "/pulse_id") (some pulse_id)
      pulse_id.dtype pulse_id.shape self.compress
  let self := self.append_dataset ("/" ++ channel_name ++ "/timestamp") (some global_time)
      global_time.dtype global_time.shape self.compress
  let self := self.append_dataset ("/" ++ channel_name ++ "/ioc_timestamp") (some ioc_time)
      ioc_time.dtype ioc_time.shape self.compress
  let self := self.append_dataset ("/" ++ channel_name ++ "/status") (some status)
      status.dtype status.shape self.compress
  let self := self.append_dataset ("/" ++ channel_name ++ "/severity") (some ioc_time)
      severity.dtype severity.shape self.compress
  self

/-- Logical row count of a named dataset (0 when absent). -/
def HDF5Collector.countOf (self : HDF5Collector) (name : String) : Nat :=
  match dictGet self.datasets name with
  | some d => d.count
  | none => 0

/-! ## Concrete fixtures and run harnesses used by the claim theorems -/

/-- A recorded collector invocation: the eight arguments `decode` passes. -/
abbrev RecEv : Type :=
  String × String × PyVal × Option Int × Option Int × Option Int × Option Int × Option Int

/-- A collector that records every invocation. -/
def recCFn : CFn (List RecEv) :=
  fun acc ch be v p g i s sv => acc ++ [(ch, be, v, p, g, i, s, sv)]

/-- A header JSON channel of type `float64`, no compression, scalar shape. -/
def cjFloat (nm : String) : ChanJson :=
  { type := some "float64", encoding := none, compression := none
    shape := none, name := nm, backend := "bk" }

/-- A header JSON channel with the unsupported type string `"string"`. -/
def cjString : ChanJson :=
  { type := some "string", encoding := none, compression := none
    shape := none, name := "s", backend := "bk" }

/-- The `n_channel` the decoder builds for `cjFloat nm`. -/
def ncFloat (nm : String) : NChan :=
  { size := 8, dtype := "f8", stype := "d", encoding := ""
    compression := none, shape := [1], name := nm, backend := "bk"
    longtype := "q", chartype := "b", inttype := "i" }

/-- A trivial stand-in for the header decompression oracle (the fixture
streams never use header compression). -/
def noDecomp : List Nat → Int → Int → List Nat := fun b _ _ => b

/-- Byte fixture for C1: a header frame (size 11: hash, compression 0,
empty JSON body, elaborated by the oracle to two float64 channels) followed
by a value frame of declared size 14 holding two zero-size events
(2 + (4 + 0) + (4 + 0) = 10 consumed after the length field) and 4 trailing
padding bytes. -/
def c1bytes : List Nat :=
  [0,0,0,0,0,0,0,11] ++ [0,1] ++ [0,0,0,0,0,0,0,0] ++ [0] ++
  [0,0,0,0,0,0,0,14] ++ [0,0] ++ [0,0,0,0] ++ [0,0,0,0] ++ [7,7,7,7]

/-- Byte fixture for C2: a header frame declaring one float64 channel,
then a value frame whose declared size 4 is smaller than the 6 bytes
actually consumed after the length field (the 2-byte kind tag plus one
4-byte zero `event_size`). -/
def c2bytes : List Nat :=
  [0,0,0,0,0,0,0,11] ++ [0,1] ++ [0,0,0,0,0,0,0,0] ++ [0] ++
  [0,0,0,0,0,0,0,4] ++ [0,0] ++ [0,0,0,0]

/-- A sample non-null scalar value for collector runs. -/
def vScalar : PyVal := .scalar "d" [0,0,0,0,0,0,0,64]

/-- Fixture for C3: `MappingCollector` with `number_of_channels = 2`, fed
3 rounds of 2 `add_data` calls (channels `a`, `b`), the second channel of
round 2 being the null event. -/
def c3run : MappingCollector :=
  (((((( MappingCollector.init 2 defaultFields).add_data
      "a" "bk" vScalar (some 1) (some 2) (some 3) (some 0) (some 0)).add_data
      "b" "bk" vScalar (some 1) (some 2) (some 3) (some 0) (some 0)).add_data
      "a" "bk" vScalar (some 4) (some 5) (some 6) (some 0) (some 0)).add_data
      "b" "bk" .none none none none none none).add_data
      "a" "bk" vScalar (some 7) (some 8) (some 9) (some 0) (some 0)).add_data
      "b" "bk" vScalar (some 7) (some 8) (some 9) (some 0) (some 0)

/-- The header oracle for the C7 fixture: the first header body (`[1]`)
declares one float64 channel, the second (empty body) declares zero
channels. -/
def c7loads : List Nat → List ChanJson :=
  fun raw => if raw = [1] then [cjFloat "a"] else []

/-- Byte fixture for C7: a header frame declaring one channel, a header
frame declaring zero channels, a value frame of declared size 6 with a
4-byte body, and a well-formed unknown-kind frame (size 2, kind 5). -/
def c7bytes : List Nat :=
  [0,0,0,0,0,0,0,12] ++ [0,1] ++ [0,0,0,0,0,0,0,0] ++ [0] ++ [1] ++
  [0,0,0,0,0,0,0,11] ++ [0,1] ++ [0,0,0,0,0,0,0,0] ++ [0] ++
  [0,0,0,0,0,0,0,6] ++ [0,0] ++ [1,2,3,4] ++
  [0,0,0,0,0,0,0,2] ++ [0,5]

/-- Repeated `append_dataset` of the same value to the same dataset of a
fresh uncompressed collector (the C8 run harness). -/
def appendRep (name : String) (v : Option NpVal) (dtype : String)
    (shape : List Nat) : Nat → HDF5Collector
  | 0 => HDF5Collector.init false
  | n + 1 => (appendRep name v dtype shape n).append_dataset name v dtype shape false

/-- The six non-null numpy fields of one event accepted by
`HDF5Collector.add_data`. -/
structure NpEvent where
  value : NpVal
  pulse_id : NpVal
  global_time : NpVal
  ioc_time : NpVal
  status : NpVal
  severity : NpVal
deriving DecidableEq, Repr

/-- Feed a sequence of events for one channel through
`HDF5Collector.add_data` (the C9 run harness). -/
def runAdds (ch be : String) : List NpEvent → HDF5Collector → HDF5Collector
  | [], st => st
  | e :: es, st =>
    runAdds ch be es
      (st.add_data ch be e.value e.pulse_id e.global_time e.ioc_time e.status e.severity)

/-- The per-channel dataset name suffixes used by `HDF5Collector.add_data`. -/
def sixSuffixes : List String :=
  ["/data", "/pulse_id", "/timestamp", "/ioc_timestamp", "/status", "/severity"]

/-- The record keys the dictionary and mapping collectors can ever
populate from `event_fields` (none of them an IOC-time field). -/
def allowedKeys : List String :=
  ["value", "time", "timeRaw", "pulseId", "status", "severity"]


/-! ## Dispatch lemmas for single frames -/

/-- Reading exactly the first half of a split stream. -/
lemma pyRead_exact (a b : List Nat) : pyRead (a ++ b) (a.length : Int) = (a, b) := by
  unfold pyRead
  rw [if_neg (by omega), Int.toNat_ofNat, List.take_left, List.drop_left]

/-- `_read_header` on a well-formed uncompressed header body: 8 hash
bytes, the `0` marker, the JSON text, and the rest of the stream. -/
lemma read_header_plain (jl : List Nat → List ChanJson)
    (bsD : List Nat → Int → Int → List Nat) (hash8 raw tail : List Nat)
    (hh : hash8.length = 8) (size : Int) (hs : size = 11 + raw.length) :
    read_header jl bsD (hash8 ++ ([0] ++ (raw ++ tail))) size = .ok (jl raw, tail) := by
  unfold read_header
  simp only [pyReadN, List.take_left' hh, List.drop_left' hh, hh]
  rw [if_neg (by omega)]
  have h1 : ([0] : List Nat).length = 1 := rfl
  simp only [@List.take_left' Nat [0] (raw ++ tail) 1 h1,
             @List.drop_left' Nat [0] (raw ++ tail) 1 h1, h1]
  rw [if_neg (by omega)]
  have hc : sInt 1 (beNat [0]) = 0 := by decide
  rw [hc]
  have hn : size - 2 - 8 - 1 = (raw.length : Int) := by rw [hs]; ring
  rw [hn, pyRead_exact]
  rfl

/-- One decode pass on a stream starting with a header frame: reduces to
`_read_header` on the body followed by channel elaboration. -/
lemma decodeStep_header {σ : Type} (jl : List Nat → List ChanJson)
    (bsD : List Nat → Int → Int → List Nat) (cf : Option (CFn σ))
    (szb body : List Nat) (s : LoopSt σ)
    (hst : s.stream = szb ++ ([0, 1] ++ body)) (hsz : szb.length = 8) :
    decodeStep jl bsD cf s =
      match read_header jl bsD body (sInt 8 (beNat szb)) with
      | .error (e, rest) => .err e rest s.col
      | .ok (chansJson, rest) =>
        match procChans chansJson with
        | .error e => .err e rest s.col
        | .ok ncs =>
          .cont { stream := rest, channels := some ncs
                  chanBound := s.chanBound || !chansJson.isEmpty
                  col := s.col } := by
  unfold decodeStep
  rw [hst]
  rw [if_neg (by simp [hsz])]
  rw [if_neg (by simp [hsz])]
  simp only [List.take_left' hsz, List.drop_left' hsz]
  rw [if_neg (by simp)]
  have h2 : (([0, 1] : List Nat) ++ body).take 2 = [0, 1] := List.take_left' rfl
  have h2' : (([0, 1] : List Nat) ++ body).drop 2 = body := List.drop_left' rfl
  simp only [h2, h2']
  have hf : sInt 2 (beNat [0, 1]) = 1 := by decide
  rw [hf, if_pos rfl]

/-- One decode pass on a stream starting with a value frame (kind 0):
reduces to the value branch on the body. -/
lemma decodeStep_value {σ : Type} (jl : List Nat → List ChanJson)
    (bsD : List Nat → Int → Int → List Nat) (cf : Option (CFn σ))
    (szb body : List Nat) (s : LoopSt σ)
    (hst : s.stream = szb ++ ([0, 0] ++ body)) (hsz : szb.length = 8) :
    decodeStep jl bsD cf s =
      match s.channels with
      | .none =>
        .cont { stream := (pyRead body (sInt 8 (beNat szb) - 2)).2
                channels := s.channels, chanBound := s.chanBound, col := s.col }
      | .some chs =>
        if s.chanBound then
          match foldChans cf chs s.col body 0 with
          | .error (e, rest, col) => .err e rest col
          | .ok (col, st', counter) =>
            .cont { stream := if sInt 8 (beNat szb) - counter > 0 then
                                (pyRead st' (sInt 8 (beNat szb) - counter)).2
                              else st'
                    channels := some chs
                    chanBound := s.chanBound || !chs.isEmpty, col := col }
        else .err .unboundLocal body s.col := by
  unfold decodeStep
  rw [hst]
  rw [if_neg (by simp [hsz])]
  rw [if_neg (by simp [hsz])]
  simp only [List.take_left' hsz, List.drop_left' hsz]
  rw [if_neg (by simp)]
  have h2 : (([0, 0] : List Nat) ++ body).take 2 = [0, 0] := List.take_left' rfl
  have h2' : (([0, 0] : List Nat) ++ body).drop 2 = body := List.drop_left' rfl
  simp only [h2, h2']
  have hf : sInt 2 (beNat [0, 0]) = 0 := by decide
  rw [hf]
  rw [if_neg (by decide), if_pos rfl]

/-- The only exception `mkNChan` can raise is the unsupported-type one. -/
lemma mkNChan_error_eq {c : ChanJson} {e : Err} (h : mkNChan c = .error e) :
    e = .unsupportedDataType := by
  cases htri : chanTri c.type with
  | none =>
    unfold mkNChan at h
    rw [htri] at h
    exact (Except.error.injEq _ _).mp h.symm
  | some tri =>
    obtain ⟨sz, dt, st⟩ := tri
    unfold mkNChan at h
    rw [htri] at h
    cases h

/-- A channel with the type string `"string"` is unsupported. -/
lemma mkNChan_string {c : ChanJson} (ht : c.type = some "string") :
    mkNChan c = .error .unsupportedDataType := by
  unfold mkNChan
  rw [ht]
  rfl

/-- A channels array containing a `"string"`-typed element makes the whole
header elaboration fail with the unsupported-type error. -/
lemma procChans_string_err {l : List ChanJson} {c : ChanJson} (hc : c ∈ l)
    (ht : c.type = some "string") :
    procChans l = .error .unsupportedDataType := by
  induction l with
  | nil => cases hc
  | cons hd tl ih =>
    rcases List.mem_cons.mp hc with rfl | hmem
    · unfold procChans
      rw [mkNChan_string ht]
    · cases hh : mkNChan hd with
      | error e =>
        unfold procChans
        rw [hh, mkNChan_error_eq hh]
      | ok n =>
        unfold procChans
        rw [hh, ih hmem]

/-! ## Claim theorems -/

/-- C1: the running byte counter and frame draining.  The claim states the
counter equals 2 plus the sum over channels of `4 + eventSize` (here
2 + 4 + 4 = 10) and that all `k = 4` trailing padding bytes are drained.
The source adds `2 + 4 + event_size` for every channel, so the counter is
12, only `14 - 12 = 2` padding bytes are drained, and 2 of the 4 padding
bytes are left in the stream: the next frame starts misaligned.  The
theorem evaluates the embedded decoder at this failing input. -/
theorem C1_size_counter_overcount :
    foldChans (some recCFn) [ncFloat "a", ncFloat "b"] []
        ([0,0,0,0] ++ [0,0,0,0] ++ [7,7,7,7]) 0
      = .ok ([("a", "bk", .none, none, none, none, none, none),
              ("b", "bk", .none, none, none, none, none, none)], [7,7,7,7], 12)
    ∧ (12 : Int) ≠ 2 + ((4 + 0) + (4 + 0))
    ∧ decodeLoop (fun _ => [cjFloat "a", cjFloat "b"]) noDecomp (some recCFn) 2
        { stream := c1bytes, channels := none, chanBound := false, col := [] }
      = .cont { stream := [7,7]
                channels := some [ncFloat "a", ncFloat "b"]
                chanBound := true
                col := [("a", "bk", .none, none, none, none, none, none),
                        ("b", "bk", .none, none, none, none, none, none)] } := by
  refine ⟨rfl, by decide, rfl⟩

/-- C2 counterexample: on a value frame where consumed bytes exceed the
declared `size` (negative remainder), the claim says the decode fails with
a fatal protocol error.  The source only checks `remaining_bytes > 0`, so
the negative remainder is silently ignored: the decode processes the
event, continues, and terminates cleanly at end of stream. -/
theorem C2_negative_remainder_silent :
    decodeLoop (fun _ => [cjFloat "a"]) noDecomp (some recCFn) 3
        { stream := c2bytes, channels := none, chanBound := false, col := [] }
      = .brk [("a", "bk", .none, none, none, none, none, none)] := rfl

/-- C2 amended: when the bytes consumed for a value frame reach or exceed
the declared `size` (non-positive remainder), the decoder raises no error
and drains nothing: the loop simply continues at the position after the
decoded events. -/
theorem C2_negative_remainder_ignored {σ : Type} (jl : List Nat → List ChanJson)
    (bsD : List Nat → Int → Int → List Nat) (cf : Option (CFn σ))
    (szb body st' : List Nat) (chs : List NChan) (col col' : σ) (counter : Int)
    (hsz : szb.length = 8)
    (hfold : foldChans cf chs col body 0 = .ok (col', st', counter))
    (hneg : sInt 8 (beNat szb) ≤ counter) :
    decodeStep jl bsD cf
        { stream := szb ++ ([0, 0] ++ body), channels := some chs
          chanBound := true, col := col }
      = .cont { stream := st', channels := some chs
                chanBound := true, col := col' } := by
  rw [decodeStep_value jl bsD cf szb body _ rfl hsz]
  simp only [hfold]
  rw [if_pos trivial]
  rw [if_neg (by omega : ¬ (sInt 8 (beNat szb) - counter > 0))]
  simp only [Bool.true_or]

/-- Witness for C2 amended at the c2bytes value frame: size 4, counter 6,
nothing drained, clean continuation. -/
theorem C2_negative_remainder_ignored_witness :
    foldChans (some recCFn) [ncFloat "a"] [] [0, 0, 0, 0] 0
      = .ok ([("a", "bk", .none, none, none, none, none, none)], [], 6)
    ∧ sInt 8 (beNat [0, 0, 0, 0, 0, 0, 0, 4]) ≤ 6
    ∧ decodeStep (fun _ => [cjFloat "a"]) noDecomp (some recCFn)
        { stream := [0, 0, 0, 0, 0, 0, 0, 4] ++ ([0, 0] ++ [0, 0, 0, 0])
          channels := some [ncFloat "a"], chanBound := true, col := [] }
      = .cont { stream := [], channels := some [ncFloat "a"]
                chanBound := true
                col := [("a", "bk", .none, none, none, none, none, none)] } :=
  ⟨rfl, by decide,
   C2_negative_remainder_ignored (fun _ => [cjFloat "a"]) noDecomp (some recCFn)
     [0, 0, 0, 0, 0, 0, 0, 4] [0, 0, 0, 0] [] [ncFloat "a"] []
     [("a", "bk", .none, none, none, none, none, none)] 6 rfl rfl (by decide)⟩

/-- C3: the claim says 3 rounds of 2 `accept` calls yield 3 rounds from
`finalize`, with round 2's second entry null.  The source flushes
`tmp_array` into `backend_data` only at the start of the next round's
first `add_data` call, and `get_data` does not flush the pending round:
after 6 calls only 2 rounds are returned and the third sits unflushed in
`tmp_array`.  The theorem evaluates the embedded collector at the failing
input. -/
theorem C3_last_round_dropped :
    c3run.get_data.length = 2
    ∧ c3run.get_data.map (fun r => r.map Option.isSome) = [[true, true], [true, false]]
    ∧ c3run.tmp_array.length = 2 := by
  refine ⟨rfl, rfl, rfl⟩

/-- C4: the claim says the row appended to the severity dataset equals the
event's severity field.  The source appends `ioc_time` under the
`severity` dataset name (`HDF5Collector.add_data`, last call), so with
severity payload 7 and ioc payload 12345 the severity dataset's first row
is the ioc value.  The theorem evaluates the embedded collector at the
failing input. -/
theorem C4_severity_dataset_gets_ioc_time :
    (dictGet ((HDF5Collector.init false).add_data "ch" "bk"
        { dtype := "f8", shape := [1], payload := 1 }
        { dtype := "i8", shape := [1], payload := 2 }
        { dtype := "i8", shape := [1], payload := 3 }
        { dtype := "i8", shape := [1], payload := 12345 }
        { dtype := "i1", shape := [1], payload := 0 }
        { dtype := "i1", shape := [1], payload := 7 }).datasets
      "/ch/severity").map (fun d => (d.cells 0, d.dtype))
      = some (some { dtype := "i8", shape := [1], payload := 12345 }, "i1")
    ∧ ({ dtype := "i8", shape := [1], payload := 12345 } : NpVal)
        ≠ { dtype := "i1", shape := [1], payload := 7 } := by
  refine ⟨rfl, by decide⟩

/-- C5: a header frame whose channels array contains an element with the
unsupported type string `"string"` makes the decode abort with the
unsupported-data-type error without consuming any byte past the header
frame: whatever follows the header frame is exactly the unread rest.  The
frame is `szb` (8 size bytes decoding to `11 + raw.length`), the header
kind tag, an 8-byte hash, the uncompressed marker and the JSON body
`raw`. -/
theorem C5_unsupported_type_aborts {σ : Type} (jl : List Nat → List ChanJson)
    (bsD : List Nat → Int → Int → List Nat) (cf : Option (CFn σ)) (n : Nat)
    (ch0 : Option (List NChan)) (cb0 : Bool) (col : σ)
    (szb hash8 raw tail : List Nat)
    (hsz : szb.length = 8) (hh : hash8.length = 8)
    (hv : sInt 8 (beNat szb) = 11 + raw.length)
    (c : ChanJson) (hc : c ∈ jl raw) (ht : c.type = some "string") :
    decodeLoop jl bsD cf (n + 1)
        { stream := szb ++ ([0, 1] ++ (hash8 ++ ([0] ++ (raw ++ tail))))
          channels := ch0, chanBound := cb0, col := col }
      = .err .unsupportedDataType tail col := by
  have hstep : decodeStep jl bsD cf
      { stream := szb ++ ([0, 1] ++ (hash8 ++ ([0] ++ (raw ++ tail))))
        channels := ch0, chanBound := cb0, col := col }
      = .err .unsupportedDataType tail col := by
    rw [decodeStep_header jl bsD cf szb (hash8 ++ ([0] ++ (raw ++ tail))) _ rfl hsz]
    rw [read_header_plain jl bsD hash8 raw tail hh _ hv]
    simp only [procChans_string_err hc ht]
  unfold decodeLoop
  rw [hstep]

/-- Witness for C5 at a concrete input: a header frame of size 11 with an
empty JSON body that the oracle parses to a single `"string"`-typed
channel, followed by one extra byte that stays unread. -/
theorem C5_unsupported_type_aborts_witness :
    cjString.type = some "string"
    ∧ decodeLoop (fun _ => [cjString]) noDecomp (some recCFn) 1
        { stream := [0, 0, 0, 0, 0, 0, 0, 11] ++
            ([0, 1] ++ ([0, 0, 0, 0, 0, 0, 0, 0] ++ ([0] ++ ([] ++ [42]))))
          channels := none, chanBound := false, col := [] }
      = .err .unsupportedDataType [42] [] :=
  ⟨rfl,
   C5_unsupported_type_aborts (fun _ => [cjString]) noDecomp (some recCFn) 0
     none false [] [0, 0, 0, 0, 0, 0, 0, 11] [0, 0, 0, 0, 0, 0, 0, 0] [] [42]
     rfl rfl (by decide) cjString (by simp) rfl⟩

/-- C6: a channel entry whose 4-byte `eventSize` field decodes to 0 yields
the fully null event (value, pulseId, globalTime, iocTime, status and
severity all `None`) and consumes exactly the 4 size bytes, leaving the
rest of the stream untouched. -/
theorem C6_zero_event_size_null_event (chan : NChan) (b4 rest : List Nat)
    (hlen : b4.length = 4)
    (hz : unpackI (chan.encoding = ">") 4 b4 = some 0) :
    readEvent chan (b4 ++ rest) = .ok (nullEv, 0, rest) := by
  unfold readEvent
  simp [pyReadN, List.take_left' hlen, List.drop_left' hlen, hz]

/-- Witness for C6 at a concrete input: a little-endian float64 channel, a
zero `eventSize` field, and two further stream bytes that stay unread. -/
theorem C6_zero_event_size_null_event_witness :
    ([0, 0, 0, 0] : List Nat).length = 4
    ∧ unpackI ((ncFloat "a").encoding = ">") 4 [0, 0, 0, 0] = some 0
    ∧ readEvent (ncFloat "a") ([0, 0, 0, 0] ++ [9, 9]) = .ok (nullEv, 0, [9, 9]) :=
  ⟨rfl, by decide,
   C6_zero_event_size_null_event (ncFloat "a") [0, 0, 0, 0] [9, 9] rfl (by decide)⟩

/-- C7: the claim says a value frame arriving while the descriptor list is
empty or absent is skipped by consuming exactly `size - 2` bytes.  The
absent (`channels is None`) case behaves as claimed, but the empty-list
case does not: the source tests `channel == []` (the leftover loop
variable, a typo for `channels == []`), which is `False` whenever
`channel` is bound (and an `UnboundLocalError` otherwise), so the frame is
processed by the empty per-channel loop and `size - 0 = 6` bytes are
drained instead of `size - 2 = 4`.  The theorem evaluates the embedded
decoder at the failing input: after the value frame the stream has lost
the first 2 bytes of the next frame, and the following step fails with a
struct error where the claimed behaviour would have continued cleanly. -/
theorem C7_empty_channel_list_overdrain :
    decodeLoop c7loads noDecomp (some recCFn) 3
        { stream := c7bytes, channels := none, chanBound := false, col := [] }
      = .cont { stream := [0, 0, 0, 0, 0, 2, 0, 5], channels := some []
                chanBound := true, col := [] }
    ∧ decodeLoop c7loads noDecomp (some recCFn) 4
        { stream := c7bytes, channels := none, chanBound := false, col := [] }
      = .err .structError [] [] := by
  refine ⟨rfl, rfl⟩

/-! ## Dictionary and dataset bookkeeping lemmas -/

/-- Looking up the key just assigned. -/
lemma dictGet_set_self {β : Type} (l : List (String × β)) (k : String) (v : β) :
    dictGet (dictSet l k v) k = some v := by
  induction l with
  | nil => simp [dictSet, dictGet]
  | cons p rest ih =>
    obtain ⟨k0, v0⟩ := p
    by_cases h : k0 = k
    · subst h
      simp [dictSet, dictGet]
    · simp [dictSet, dictGet, h, ih]

/-- Assignment leaves other keys untouched. -/
lemma dictGet_set_ne {β : Type} (l : List (String × β)) (k k' : String) (v : β)
    (h : k' ≠ k) : dictGet (dictSet l k v) k' = dictGet l k' := by
  induction l with
  | nil => simp [dictSet, dictGet, Ne.symm h]
  | cons p rest ih =>
    obtain ⟨k0, v0⟩ := p
    by_cases h0 : k0 = k
    · subst h0
      simp [dictSet, dictGet, Ne.symm h]
    · simp [dictSet, dictGet, h0, ih]

/-- Lookup through a value-wise map of the dictionary. -/
lemma dictGet_map {β γ : Type} (f : β → γ) (l : List (String × β)) (k : String) :
    dictGet (l.map (fun p => (p.1, f p.2))) k = (dictGet l k).map f := by
  induction l with
  | nil => simp [dictGet]
  | cons p rest ih =>
    obtain ⟨k0, v0⟩ := p
    by_cases h : k0 = k
    · subst h
      simp [dictGet]
    · simp [dictGet, h, ih]

/-- Keys present after an assignment: the old keys or the assigned one. -/
lemma dictSet_keys {β : Type} (r : List (String × β)) (k : String) (v : β)
    (k' : String) (h : k' ∈ (dictSet r k v).map Prod.fst) :
    k' ∈ r.map Prod.fst ∨ k' = k := by
  induction r with
  | nil =>
    simp [dictSet] at h
    exact Or.inr h
  | cons p rest ih =>
    obtain ⟨k0, v0⟩ := p
    by_cases h0 : k0 = k
    · subst h0
      simp only [dictSet, if_pos rfl, List.map_cons] at h
      cases h with
      | head => exact Or.inr rfl
      | tail _ hh =>
        exact Or.inl (by rw [List.map_cons]; exact List.mem_cons_of_mem _ hh)
    · simp only [dictSet, if_neg h0, List.map_cons] at h
      cases h with
      | head => exact Or.inl (by rw [List.map_cons]; exact List.mem_cons_self _ _)
      | tail _ hh =>
        cases ih hh with
        | inl hl =>
          exact Or.inl (by rw [List.map_cons]; exact List.mem_cons_of_mem _ hl)
        | inr hr => exact Or.inr hr

/-- Left-cancellation for string concatenation. -/
lemma str_append_left_cancel {a x y : String} (h : a ++ x = a ++ y) : x = y := by
  have hd : (a ++ x).data = (a ++ y).data := congrArg String.data h
  rw [String.data_append, String.data_append] at hd
  exact String.ext (List.append_cancel_left hd)

/-- Distinct suffixes give distinct per-channel dataset names. -/
lemma dsname_ne (ch : String) {f g : String} (h : f ≠ g) :
    ("/" ++ ch) ++ f ≠ ("/" ++ ch) ++ g :=
  fun he => h (str_append_left_cancel he)

/-- `append_dataset` on an existing dataset: the logical row count grows
by one, the allocation stays at least as large as the count, and a `None`
value writes no cell. -/
lemma append_dataset_some {st : HDF5Collector} {name : String} {d : Dataset}
    (hg : dictGet st.datasets name = some d) (hle : d.count ≤ d.shape0)
    (v : Option NpVal) (dt : String) (sh : List Nat) (c : Bool) :
    ∃ d', dictGet (st.append_dataset name v dt sh c).datasets name = some d'
      ∧ d'.count = d.count + 1 ∧ d'.count ≤ d'.shape0
      ∧ (v = none → d'.cells = d.cells) := by
  unfold HDF5Collector.append_dataset
  rw [hg]
  simp only [Option.isSome_some, if_true, hg]
  by_cases hgrow : d.shape0 < d.count + 1
  · rw [if_pos hgrow]
    cases v with
    | none =>
      exact ⟨_, dictGet_set_self _ _ _, rfl,
        by show d.count + 1 ≤ d.count + 1000; omega, fun _ => rfl⟩
    | some x =>
      exact ⟨_, dictGet_set_self _ _ _, rfl,
        by show d.count + 1 ≤ d.count + 1000; omega, fun hx => by cases hx⟩
  · rw [if_neg hgrow]
    cases v with
    | none =>
      exact ⟨_, dictGet_set_self _ _ _, rfl,
        by show d.count + 1 ≤ d.shape0; omega, fun _ => rfl⟩
    | some x =>
      exact ⟨_, dictGet_set_self _ _ _, rfl,
        by show d.count + 1 ≤ d.shape0; omega, fun hx => by cases hx⟩

/-- `append_dataset` on a missing dataset creates it with one row. -/
lemma append_dataset_fresh {st : HDF5Collector} {name : String}
    (hg : dictGet st.datasets name = none)
    (v : Option NpVal) (dt : String) (sh : List Nat) (c : Bool) :
    ∃ d', dictGet (st.append_dataset name v dt sh c).datasets name = some d'
      ∧ d'.count = 1 ∧ d'.count ≤ d'.shape0 := by
  unfold HDF5Collector.append_dataset
  rw [hg]
  simp only [Option.isSome_none, Bool.false_eq_true, if_false]
  rw [dictGet_set_self]
  simp only
  rw [if_neg (by show ¬ (1 < 0 + 1); omega)]
  cases v with
  | none => exact ⟨_, dictGet_set_self _ _ _, rfl, by show 0 + 1 ≤ 1; omega⟩
  | some x => exact ⟨_, dictGet_set_self _ _ _, rfl, by show 0 + 1 ≤ 1; omega⟩

/-- Invariant of the C8 run: after `n ≥ 1` appends the dataset exists,
counts exactly `n` rows, and its allocation is at least the count. -/
lemma appendRep_invariant (name : String) (v : Option NpVal) (dt : String)
    (sh : List Nat) :
    ∀ n : Nat, n ≠ 0 → ∃ d : Dataset,
      dictGet (appendRep name v dt sh n).datasets name = some d
      ∧ d.count = n ∧ d.count ≤ d.shape0 := by
  intro n
  induction n with
  | zero => intro h; exact absurd rfl h
  | succ k ih =>
    intro _
    by_cases hk : k = 0
    · subst hk
      have hg : dictGet (appendRep name v dt sh 0).datasets name = none := rfl
      obtain ⟨d', hd', hc', hle'⟩ := append_dataset_fresh hg v dt sh false
      exact ⟨d', hd', hc', hle'⟩
    · obtain ⟨d, hd, hc, hle⟩ := ih hk
      obtain ⟨d', hd', hc', hle', _⟩ := append_dataset_some hd hle v dt sh false
      exact ⟨d', hd', by omega, hle'⟩

/-- C8: after `n ≥ 1` appends to one dataset, `close` (which compacts)
leaves the allocated first-dimension extent equal to the logical row count
`n`, even though allocation grows in 1000-row increments while appending. -/
theorem C8_compaction_exact_length (name : String) (v : NpVal) (dt : String)
    (sh : List Nat) (n : Nat) (hn : n ≠ 0) :
    (dictGet ((appendRep name (some v) dt sh n).close).datasets name).map
        (fun d => (d.count, d.shape0))
      = some (n, n) := by
  obtain ⟨d, hd, hc, hle⟩ := appendRep_invariant name (some v) dt sh n hn
  unfold HDF5Collector.close HDF5Collector.compact_data
  dsimp only
  rw [dictGet_map compactD, hd]
  unfold compactD
  by_cases hlt : d.count < d.shape0
  · rw [hc] at hlt
    simp [hlt, hc]
  · have h0 : d.shape0 = d.count := by omega
    simp [hlt, h0, hc]

/-- Witness for C8 at 1500 single-scalar appends. -/
theorem C8_compaction_exact_length_witness :
    (1500 : Nat) ≠ 0
    ∧ (dictGet ((appendRep "/x/data" (some { dtype := "f8", shape := [1], payload := 1 })
          "f8" [1] 1500).close).datasets "/x/data").map (fun d => (d.count, d.shape0))
      = some (1500, 1500) :=
  ⟨by decide,
   C8_compaction_exact_length "/x/data" { dtype := "f8", shape := [1], payload := 1 }
     "f8" [1] 1500 (by decide)⟩

/-- `append_dataset` always increments the target's logical row count,
whether or not the dataset existed and whether or not the value is null. -/
lemma countOf_append_self (st : HDF5Collector) (name : String) (v : Option NpVal)
    (dt : String) (sh : List Nat) (c : Bool) :
    (st.append_dataset name v dt sh c).countOf name = st.countOf name + 1 := by
  cases hg : dictGet st.datasets name with
  | some d =>
    unfold HDF5Collector.append_dataset HDF5Collector.countOf
    rw [hg]
    simp only [Option.isSome_some, if_true, hg]
    by_cases hgrow : d.shape0 < d.count + 1
    · rw [if_pos hgrow]
      cases v with
      | none => rw [dictGet_set_self]
      | some x => rw [dictGet_set_self]
    · rw [if_neg hgrow]
      cases v with
      | none => rw [dictGet_set_self]
      | some x => rw [dictGet_set_self]
  | none =>
    unfold HDF5Collector.append_dataset HDF5Collector.countOf
    rw [hg]
    simp only [Option.isSome_none, Bool.false_eq_true, if_false]
    rw [dictGet_set_self]
    simp only
    rw [if_neg (by show ¬ (1 < 0 + 1); omega)]
    cases v with
    | none => rw [dictGet_set_self]
    | some x => rw [dictGet_set_self]

/-- `append_dataset` touches no dataset other than its target. -/
lemma countOf_append_ne (st : HDF5Collector) (name nm : String) (v : Option NpVal)
    (dt : String) (sh : List Nat) (c : Bool) (h : nm ≠ name) :
    (st.append_dataset name v dt sh c).countOf nm = st.countOf nm := by
  unfold HDF5Collector.append_dataset HDF5Collector.countOf
  cases hg : dictGet st.datasets name with
  | some d =>
    cases v with
    | none => simp [hg, dictGet_set_ne _ _ _ _ h]
    | some x => simp [hg, dictGet_set_ne _ _ _ _ h]
  | none =>
    cases v with
    | none => simp [hg, dictGet_set_self, dictGet_set_ne _ _ _ _ h]
    | some x => simp [hg, dictGet_set_self, dictGet_set_ne _ _ _ _ h]

/-- One `HDF5Collector.add_data` call increments the logical row count of
each of the six per-field datasets of its channel by exactly one. -/
lemma add_data_count_succ (st : HDF5Collector) (ch be : String)
    (v p g i s sv : NpVal) (f : String) (hf : f ∈ sixSuffixes) :
    (st.add_data ch be v p g i s sv).countOf (("/" ++ ch) ++ f)
      = st.countOf (("/" ++ ch) ++ f) + 1 := by
  have hne : ∀ f' g' : String, f' ≠ g' →
      ("/" ++ ch) ++ f' ≠ ("/" ++ ch) ++ g' := fun _ _ h => dsname_ne ch h
  unfold HDF5Collector.add_data
  fin_cases hf
  · rw [countOf_append_ne _ _ _ _ _ _ _ (hne _ _ (by decide)),
        countOf_append_ne _ _ _ _ _ _ _ (hne _ _ (by decide)),
        countOf_append_ne _ _ _ _ _ _ _ (hne _ _ (by decide)),
        countOf_append_ne _ _ _ _ _ _ _ (hne _ _ (by decide)),
        countOf_append_ne _ _ _ _ _ _ _ (hne _ _ (by decide)),
        countOf_append_self]
  · rw [countOf_append_ne _ _ _ _ _ _ _ (hne _ _ (by decide)),
        countOf_append_ne _ _ _ _ _ _ _ (hne _ _ (by decide)),
        countOf_append_ne _ _ _ _ _ _ _ (hne _ _ (by decide)),
        countOf_append_ne _ _ _ _ _ _ _ (hne _ _ (by decide)),
        countOf_append_self,
        countOf_append_ne _ _ _ _ _ _ _ (hne _ _ (by decide))]
  · rw [countOf_append_ne _ _ _ _ _ _ _ (hne _ _ (by decide)),
        countOf_append_ne _ _ _ _ _ _ _ (hne _ _ (by decide)),
        countOf_append_ne _ _ _ _ _ _ _ (hne _ _ (by decide)),
        countOf_append_self,
        countOf_append_ne _ _ _ _ _ _ _ (hne _ _ (by decide)),
        countOf_append_ne _ _ _ _ _ _ _ (hne _ _ (by decide))]
  · rw [countOf_append_ne _ _ _ _ _ _ _ (hne _ _ (by decide)),
        countOf_append_ne _ _ _ _ _ _ _ (hne _ _ (by decide)),
        countOf_append_self,
        countOf_append_ne _ _ _ _ _ _ _ (hne _ _ (by decide)),
        countOf_append_ne _ _ _ _ _ _ _ (hne _ _ (by decide)),
        countOf_append_ne _ _ _ _ _ _ _ (hne _ _ (by decide))]
  · rw [countOf_append_ne _ _ _ _ _ _ _ (hne _ _ (by decide)),
        countOf_append_self,
        countOf_append_ne _ _ _ _ _ _ _ (hne _ _ (by decide)),
        countOf_append_ne _ _ _ _ _ _ _ (hne _ _ (by decide)),
        countOf_append_ne _ _ _ _ _ _ _ (hne _ _ (by decide)),
        countOf_append_ne _ _ _ _ _ _ _ (hne _ _ (by decide))]
  · rw [countOf_append_self,
        countOf_append_ne _ _ _ _ _ _ _ (hne _ _ (by decide)),
        countOf_append_ne _ _ _ _ _ _ _ (hne _ _ (by decide)),
        countOf_append_ne _ _ _ _ _ _ _ (hne _ _ (by decide)),
        countOf_append_ne _ _ _ _ _ _ _ (hne _ _ (by decide)),
        countOf_append_ne _ _ _ _ _ _ _ (hne _ _ (by decide))]

/-- Counting through a whole single-channel accept run. -/
lemma runAdds_count (ch be : String) (f : String) (hf : f ∈ sixSuffixes) :
    ∀ (evs : List NpEvent) (st : HDF5Collector),
      (runAdds ch be evs st).countOf (("/" ++ ch) ++ f)
        = st.countOf (("/" ++ ch) ++ f) + evs.length := by
  intro evs
  induction evs with
  | nil => intro st; simp [runAdds]
  | cons e es ih =>
    intro st
    rw [runAdds, ih, add_data_count_succ st ch be _ _ _ _ _ _ f hf]
    simp only [List.length_cons]
    omega

/-- C9: a null value still occupies a row.  First conjunct: on an
existing dataset, `append_dataset` with a `None` value increments the
logical row count by one and writes no cell.  Second conjunct: one
`add_data` call increments all six per-field datasets of its channel by
one.  Third conjunct: after any single-channel accept run from a fresh
collector, every one of the six per-field datasets holds exactly one
logical row per accepted event, so all six counts agree. -/
theorem C9_null_append_increments_count :
    (∀ (st : HDF5Collector) (name : String) (d : Dataset) (dt : String)
        (sh : List Nat) (c : Bool), dictGet st.datasets name = some d →
        d.count ≤ d.shape0 →
        ∃ d', dictGet (st.append_dataset name none dt sh c).datasets name = some d'
          ∧ d'.count = d.count + 1 ∧ d'.cells = d.cells)
    ∧ (∀ (st : HDF5Collector) (ch be : String) (v p g i s sv : NpVal)
        (f : String), f ∈ sixSuffixes →
        (st.add_data ch be v p g i s sv).countOf (("/" ++ ch) ++ f)
          = st.countOf (("/" ++ ch) ++ f) + 1)
    ∧ (∀ (ch be : String) (evs : List NpEvent) (f : String), f ∈ sixSuffixes →
        (runAdds ch be evs (HDF5Collector.init false)).countOf (("/" ++ ch) ++ f)
          = evs.length) := by
  refine ⟨?_, ?_, ?_⟩
  · intro st name d dt sh c hg hle
    obtain ⟨d', hd', hc', _, hcells⟩ := append_dataset_some hg hle none dt sh c
    exact ⟨d', hd', hc', hcells rfl⟩
  · intro st ch be v p g i s sv f hf
    exact add_data_count_succ st ch be v p g i s sv f hf
  · intro ch be evs f hf
    rw [runAdds_count ch be f hf evs (HDF5Collector.init false)]
    simp [HDF5Collector.countOf, HDF5Collector.init, dictGet]

/-- Witness for C9 at concrete inputs: a one-dataset state receiving a
null append, and one concrete `add_data` call checked on the `/data` and
`/severity` datasets, plus the empty run. -/
theorem C9_null_append_increments_count_witness :
    (∃ d', dictGet ((HDF5Collector.mk
          [("x", { name := "x", count := 3, shape0 := 5, dtype := "f8"
                   rowShape := [1], cells := fun _ => none })] false).append_dataset
          "x" none "f8" [1] false).datasets "x" = some d'
        ∧ d'.count = 3 + 1 ∧ d'.cells = (fun _ => none))
    ∧ ((HDF5Collector.init false).add_data "c" "bk"
          { dtype := "f8", shape := [1], payload := 1 }
          { dtype := "i8", shape := [1], payload := 2 }
          { dtype := "i8", shape := [1], payload := 3 }
          { dtype := "i8", shape := [1], payload := 4 }
          { dtype := "i1", shape := [1], payload := 5 }
          { dtype := "i1", shape := [1], payload := 6 }).countOf (("/" ++ "c") ++ "/data")
        = (HDF5Collector.init false).countOf (("/" ++ "c") ++ "/data") + 1
    ∧ (runAdds "c" "bk" [] (HDF5Collector.init false)).countOf (("/" ++ "c") ++ "/severity")
        = ([] : List NpEvent).length := by
  refine ⟨?_, ?_, ?_⟩
  · exact C9_null_append_increments_count.1
      (HDF5Collector.mk
        [("x", { name := "x", count := 3, shape0 := 5, dtype := "f8"
                 rowShape := [1], cells := fun _ => none })] false)
      "x"
      { name := "x", count := 3, shape0 := 5, dtype := "f8"
        rowShape := [1], cells := fun _ => none }
      "f8" [1] false rfl (by decide)
  · exact C9_null_append_increments_count.2.1 _ "c" "bk" _ _ _ _ _ _ "/data" (by decide)
  · exact C9_null_append_increments_count.2.2 "c" "bk" [] "/severity" (by decide)

/-- One `event_fields` iteration only ever adds keys from `allowedKeys`. -/
lemma buildField_keys (value : PyVal) (p g s sv : Option Int) (r0 : Rec)
    (f : String) (k : String)
    (h : k ∈ (buildField value p g s sv r0 f).map Prod.fst) :
    k ∈ r0.map Prod.fst ∨ k ∈ allowedKeys := by
  unfold buildField at h
  split_ifs at h with h1 h2 h3 h4 h5 h6
  · rcases dictSet_keys _ _ _ _ h with hl | hr
    · exact Or.inl hl
    · exact Or.inr (by rw [hr]; decide)
  · rcases dictSet_keys _ _ _ _ h with hl | hr
    · exact Or.inl hl
    · exact Or.inr (by rw [hr]; decide)
  · rcases dictSet_keys _ _ _ _ h with hl | hr
    · exact Or.inl hl
    · exact Or.inr (by rw [hr]; decide)
  · rcases dictSet_keys _ _ _ _ h with hl | hr
    · exact Or.inl hl
    · exact Or.inr (by rw [hr]; decide)
  · rcases dictSet_keys _ _ _ _ h with hl | hr
    · exact Or.inl hl
    · exact Or.inr (by rw [hr]; decide)
  · rcases dictSet_keys _ _ _ _ h with hl | hr
    · exact Or.inl hl
    · exact Or.inr (by rw [hr]; decide)
  · exact Or.inl h

/-- Keys of a record built by the `event_fields` loop: the seed keys or
allowed keys. -/
lemma buildFields_keys (value : PyVal) (p g s sv : Option Int) :
    ∀ (fields : List String) (r0 : Rec) (k : String),
      k ∈ (buildFields fields value p g s sv r0).map Prod.fst →
        k ∈ r0.map Prod.fst ∨ k ∈ allowedKeys := by
  intro fields
  induction fields with
  | nil =>
    intro r0 k h
    exact Or.inl h
  | cons f fs ih =>
    intro r0 k h
    have h' : k ∈ (buildFields fs value p g s sv
        (buildField value p g s sv r0 f)).map Prod.fst := h
    rcases ih _ k h' with hl | hr
    · exact buildField_keys value p g s sv r0 f k hl
    · exact Or.inr hr

/-- C10: neither the dictionary nor the mapping collector depends on the
`ioc_time` argument (the `iocSeconds` branch is commented out in the
source): two `add_data` calls differing only in `ioc_time` produce
identical states, and the records built can only carry the keys `value`,
`time`, `timeRaw`, `pulseId`, `status`, `severity` (plus `channel` and
`backend` for the mapping variant) - no IOC-time key exists. -/
theorem C10_ioc_time_never_used :
    (∀ (st : DictionaryCollector) (ch be : String) (v : PyVal)
        (p g i1 i2 s sv : Option Int),
        st.add_data ch be v p g i1 s sv = st.add_data ch be v p g i2 s sv)
    ∧ (∀ (st : MappingCollector) (ch be : String) (v : PyVal)
        (p g i1 i2 s sv : Option Int),
        st.add_data ch be v p g i1 s sv = st.add_data ch be v p g i2 s sv)
    ∧ (∀ (fields : List String) (v : PyVal) (p g s sv : Option Int) (k : String),
        k ∈ (buildFields fields v p g s sv []).map Prod.fst → k ∈ allowedKeys)
    ∧ (∀ (fields : List String) (ch be : String) (v : PyVal) (p g s sv : Option Int)
        (k : String),
        k ∈ (buildFields fields v p g s sv
            [("channel", .str ch), ("backend", .str be)]).map Prod.fst →
          k ∈ "channel" :: "backend" :: allowedKeys) := by
  refine ⟨fun _ _ _ _ _ _ _ _ _ _ => rfl, fun _ _ _ _ _ _ _ _ _ _ => rfl, ?_, ?_⟩
  · intro fields v p g s sv k h
    rcases buildFields_keys v p g s sv fields [] k h with hl | hr
    · cases hl
    · exact hr
  · intro fields ch be v p g s sv k h
    rcases buildFields_keys v p g s sv fields _ k h with hl | hr
    · simp at hl
      rcases hl with h1 | h1
      · simp [h1]
      · simp [h1]
    · simp [hr]

/-- Witness for C10 at concrete inputs: a single-field configuration, two
ioc values 1 and 2, and key membership checks. -/
theorem C10_ioc_time_never_used_witness :
    ((DictionaryCollector.init ["value"]).add_data "c" "bk" .none none none (some 1) none none
      = (DictionaryCollector.init ["value"]).add_data "c" "bk" .none none none (some 2) none none)
    ∧ ((MappingCollector.init 1 ["value"]).add_data "c" "bk" .none none none (some 1) none none
      = (MappingCollector.init 1 ["value"]).add_data "c" "bk" .none none none (some 2) none none)
    ∧ "value" ∈ allowedKeys
    ∧ "channel" ∈ "channel" :: "backend" :: allowedKeys :=
  ⟨C10_ioc_time_never_used.1 (DictionaryCollector.init ["value"]) "c" "bk"
     .none none none (some 1) (some 2) none none,
   C10_ioc_time_never_used.2.1 (MappingCollector.init 1 ["value"]) "c" "bk"
     .none none none (some 1) (some 2) none none,
   C10_ioc_time_never_used.2.2.1 ["value"] .none none none none none "value" (by decide),
   C10_ioc_time_never_used.2.2.2 ["value"] "c" "bk" .none none none none none
     "channel" (by decide)⟩
